import Mathlib

/- Verification development for the nscrestc monitoring CLI (src/nscrestc.go).
The program performs one HTTP GET against an NSClient++ agent, decodes the
JSON response into the Query structure, and re-emits a Nagios-style plugin
line plus an exit code.  We shallowly embed the data model, the JSON
decoding at the call site, the output formatting loop, and the post-response
control flow, and prove the specification claims about them.

Modelling conventions:
* float64 metric values are embedded as exact rationals (ℚ); the rendering
  performed by strconv.FormatFloat(x, 'f', -1, 64) (shortest decimal,
  no exponent) is kept abstract as a formatter parameter `fm : ℚ → String`,
  since IEEE-754 shortest-representation printing is outside the scope of
  the embedding.  All structural output properties are proved for every
  formatter.
* the response body handed to json.NewDecoder(...).Decode is embedded as
  `Option JValue`: `none` models a body that contains no syntactically
  complete JSON value (malformed JSON / empty body), in which case Go's
  Decoder returns an error before writing anything to the target, leaving
  it zero-valued. -/

namespace Nscrestc

/-- A JSON value, with numbers embedded as exact rationals. -/
inductive JValue where
  | null : JValue
  | bool : Bool → JValue
  | num : ℚ → JValue
  | str : String → JValue
  | arr : List JValue → JValue
  | obj : List (String × JValue) → JValue

/-- `IntValue` of src/nscrestc.go:53-60: the six optional metric fields.
Go pointer fields (`*float64`, `*string`) are embedded as `Option`. -/
structure IntValue where
  value : Option ℚ
  unit : Option String
  warning : Option ℚ
  critical : Option ℚ
  minimum : Option ℚ
  maximum : Option ℚ
deriving DecidableEq

/-- A perf entry of src/nscrestc.go:51-61: alias plus the int_value record. -/
structure Perf where
  Alias : String
  int_value : IntValue
deriving DecidableEq

/-- A line of src/nscrestc.go:49-62: message plus perf entries. -/
structure Line where
  message : String
  perf : List Perf
deriving DecidableEq

/-- A payload entry of src/nscrestc.go:47-64. -/
structure PayloadEntry where
  command : String
  lines : List Line
  result : String
deriving DecidableEq

/-- The header of src/nscrestc.go:44-46. -/
structure Header where
  source_id : String
deriving DecidableEq

/-- The Query structure of src/nscrestc.go:43-65, the decode target. -/
structure Query where
  header : Header
  payload : List PayloadEntry
deriving DecidableEq

/-- Go zero value of IntValue: all pointers nil. -/
def IntValue.zero : IntValue := ⟨none, none, none, none, none, none⟩

/-- Go zero value of a perf entry. -/
def Perf.zero : Perf := ⟨"", IntValue.zero⟩

/-- Go zero value of a line. -/
def Line.zero : Line := ⟨"", []⟩

/-- Go zero value of a payload entry. -/
def PayloadEntry.zero : PayloadEntry := ⟨"", [], ""⟩

/-- Go zero value of the Query structure, as produced by `new(Query)`
at src/nscrestc.go:177. -/
def Query.zero : Query := ⟨⟨""⟩, []⟩

/-- ASCII lowercasing of a string (Char.toLower maps only A-Z). -/
def lowerAscii (s : String) : String := String.mk (s.data.map Char.toLower)

/-- Models encoding/json field-name matching for the lowercase ASCII struct
tags of Query: Unmarshal prefers an exact match but also accepts a
case-insensitive match (strings.EqualFold), which for these all-lowercase
ASCII tags is equivalent to comparing the ASCII-lowercased incoming key
with the tag. -/
def tagMatch (tag key : String) : Bool := lowerAscii key == tag

/-- Models encoding/json decoding of a JSON value into a `*float64` field
holding `cur`: a number stores the value, `null` sets the pointer to nil,
and any other JSON type is an UnmarshalTypeError which is recorded and
skipped, leaving the field unchanged. -/
def decodeOptFloat (cur : Option ℚ) : JValue → Option ℚ
  | JValue.num q => some q
  | JValue.null => none
  | _ => cur

/-- Models encoding/json decoding of a JSON value into a `*string` field. -/
def decodeOptString (cur : Option String) : JValue → Option String
  | JValue.str s => some s
  | JValue.null => none
  | _ => cur

/-- Models encoding/json decoding of a JSON value into a plain `string`
field: `null` has no effect, a wrong type is recorded and skipped. -/
def decodeString (cur : String) : JValue → String
  | JValue.str s => s
  | _ => cur

/-- Models encoding/json decoding of a JSON object body into the IntValue
struct (tags of src/nscrestc.go:54-59): fields are visited in source order,
keys are matched against the struct tags — note the tag "mininum" (sic) for
the Minimum field — and unknown keys are ignored.  A non-object value is a
type error leaving the target unchanged. -/
def intValueStep (iv : IntValue) (kv : String × JValue) : IntValue :=
  if tagMatch "value" kv.1 then { iv with value := decodeOptFloat iv.value kv.2 }
  else if tagMatch "unit" kv.1 then { iv with unit := decodeOptString iv.unit kv.2 }
  else if tagMatch "warning" kv.1 then { iv with warning := decodeOptFloat iv.warning kv.2 }
  else if tagMatch "critical" kv.1 then { iv with critical := decodeOptFloat iv.critical kv.2 }
  else if tagMatch "mininum" kv.1 then { iv with minimum := decodeOptFloat iv.minimum kv.2 }
  else if tagMatch "maximum" kv.1 then { iv with maximum := decodeOptFloat iv.maximum kv.2 }
  else iv

def decodeIntValueInto (cur : IntValue) : JValue → IntValue
  | JValue.obj fs => fs.foldl intValueStep cur
  | _ => cur

/-- Models encoding/json decoding into one perf entry (tags "alias",
"int_value" of src/nscrestc.go:52-60). -/
def decodePerfInto (cur : Perf) : JValue → Perf
  | JValue.obj fs =>
      fs.foldl (fun p kv =>
        if tagMatch "alias" kv.1 then { p with Alias := decodeString p.Alias kv.2 }
        else if tagMatch "int_value" kv.1 then { p with int_value := decodeIntValueInto p.int_value kv.2 }
        else p) cur
  | _ => cur

/-- Models encoding/json decoding of a JSON value into the `Perf` slice:
an array resets the slice and decodes each element from its zero value
(a mistyped element is recorded and skipped but still occupies a slot),
`null` sets the slice to nil, and any other type leaves it unchanged. -/
def decodePerfListInto (cur : List Perf) : JValue → List Perf
  | JValue.arr xs => xs.map (decodePerfInto Perf.zero)
  | JValue.null => []
  | _ => cur

/-- Models encoding/json decoding into one line (tags "message", "perf"
of src/nscrestc.go:50-61). -/
def decodeLineInto (cur : Line) : JValue → Line
  | JValue.obj fs =>
      fs.foldl (fun l kv =>
        if tagMatch "message" kv.1 then { l with message := decodeString l.message kv.2 }
        else if tagMatch "perf" kv.1 then { l with perf := decodePerfListInto l.perf kv.2 }
        else l) cur
  | _ => cur

/-- Models encoding/json decoding of a JSON value into the `Line` slice. -/
def decodeLineListInto (cur : List Line) : JValue → List Line
  | JValue.arr xs => xs.map (decodeLineInto Line.zero)
  | JValue.null => []
  | _ => cur

/-- Models encoding/json decoding into one payload entry (tags "command",
"lines", "result" of src/nscrestc.go:48-63). -/
def decodePayloadEntryInto (cur : PayloadEntry) : JValue → PayloadEntry
  | JValue.obj fs =>
      fs.foldl (fun e kv =>
        if tagMatch "command" kv.1 then { e with command := decodeString e.command kv.2 }
        else if tagMatch "lines" kv.1 then { e with lines := decodeLineListInto e.lines kv.2 }
        else if tagMatch "result" kv.1 then { e with result := decodeString e.result kv.2 }
        else e) cur
  | _ => cur

/-- Models encoding/json decoding of a JSON value into the payload slice. -/
def decodePayloadListInto (cur : List PayloadEntry) : JValue → List PayloadEntry
  | JValue.arr xs => xs.map (decodePayloadEntryInto PayloadEntry.zero)
  | JValue.null => []
  | _ => cur

/-- Models encoding/json decoding into the header (tag "source_id"). -/
def decodeHeaderInto (cur : Header) : JValue → Header
  | JValue.obj fs =>
      fs.foldl (fun h kv =>
        if tagMatch "source_id" kv.1 then { h with source_id := decodeString h.source_id kv.2 }
        else h) cur
  | _ => cur

/-- Models encoding/json decoding of a complete JSON value into the Query
structure (tags "header", "payload" of src/nscrestc.go:43-65): a top-level
non-object is a type error leaving the zero value in place. -/
def decodeQueryVal (v : JValue) : Query :=
  match v with
  | JValue.obj fs =>
      fs.foldl (fun q kv =>
        if tagMatch "header" kv.1 then { q with header := decodeHeaderInto q.header kv.2 }
        else if tagMatch "payload" kv.1 then { q with payload := decodePayloadListInto q.payload kv.2 }
        else q) Query.zero
  | _ => Query.zero

/-- Models `json.NewDecoder(res.Body).Decode(queryResult)` at
src/nscrestc.go:178 on a fresh `new(Query)` target: `none` stands for a
body with no syntactically complete JSON value (the Decoder fails before
unmarshalling, leaving the target zero-valued); the returned error is
discarded by the caller in every case. -/
def decodeQuery : Option JValue → Query
  | none => Query.zero
  | some v => decodeQueryVal v

/-- The Unicode White_Space test of Go's unicode.IsSpace, used by
strings.TrimSpace. -/
def isSpaceGo (c : Char) : Bool :=
  let n := c.toNat
  (9 ≤ n && n ≤ 13) || n == 32 || n == 0x85 || n == 0xA0 || n == 0x1680 ||
  (0x2000 ≤ n && n ≤ 0x200A) || n == 0x2028 || n == 0x2029 || n == 0x202F ||
  n == 0x205F || n == 0x3000

/-- Go's strings.TrimSpace: remove leading and trailing white space. -/
def trimSpace (s : String) : String :=
  String.mk (((s.data.dropWhile isSpaceGo).reverse.dropWhile isSpaceGo).reverse)

/-- The `;`-prefixed optional numeric segment of a perf tag: one of the
`if p.IntValue.X != nil` blocks of src/nscrestc.go:207-218. -/
def optSeg (fm : ℚ → String) : Option ℚ → String
  | none => ""
  | some x => ";" ++ fm x

/-- The string appended to the nagiosPerfdata buffer for one perf entry by
the inner loop of src/nscrestc.go:197-219: nothing when the value pointer
is nil, otherwise a space, the quoted alias, `=`, the formatted value, the
unit if present, then the `;`-prefixed warning / critical / minimum /
maximum, each only if present.  `fm` abstracts
strconv.FormatFloat(x, 'f', -1, 64). -/
def perfString (fm : ℚ → String) (p : Perf) : String :=
  match p.int_value.value with
  | none => ""
  | some v =>
      (" '" ++ p.Alias ++ "'=" ++ fm v)
      ++ (match p.int_value.unit with
          | some u => u
          | none => "")
      ++ optSeg fm p.int_value.warning
      ++ optSeg fm p.int_value.critical
      ++ optSeg fm p.int_value.minimum
      ++ optSeg fm p.int_value.maximum

/-- Concatenation of a list of strings in order. -/
def concatAll : List String → String
  | [] => ""
  | s :: ss => s ++ concatAll ss

/-- Everything one line appends to the nagiosPerfdata buffer: the inner
loop of src/nscrestc.go:197-219 run over the line's perf entries. -/
def perfOfLine (fm : ℚ → String) (l : Line) : String :=
  concatAll (l.perf.map (perfString fm))

/-- The loop over `queryResult.Payload[0].Lines` of src/nscrestc.go:193-220,
threading the two accumulators: nagiosMessage is overwritten with the
trimmed message of each line in turn, nagiosPerfdata grows by each line's
perf output. -/
def linesLoop (fm : ℚ → String) (msg buf : String) : List Line → String × String
  | [] => (msg, buf)
  | l :: ls => linesLoop fm (trimSpace l.message) (buf ++ perfOfLine fm l) ls

/-- State of the accumulators after the loop, started from the zero values
of src/nscrestc.go:189-190. -/
def processLines (fm : ℚ → String) (ls : List Line) : String × String :=
  linesLoop fm "" "" ls

/-- `ReturncodeMap` of src/nscrestc.go:80-85 together with Go's map-lookup
semantics at src/nscrestc.go:227: a key absent from the map yields the
zero value 0. -/
def ReturncodeMap (s : String) : Nat :=
  if s = "OK" then 0
  else if s = "WARNING" then 1
  else if s = "CRITICAL" then 2
  else if s = "UNKNOWN" then 3
  else 0

/-- The output line and exit code computed from the first payload entry by
src/nscrestc.go:187-227: the final nagiosMessage, with `|` and the trimmed
perfdata buffer appended only when the buffer is non-empty, and the
ReturncodeMap lookup of the entry's result string. -/
def formatFirstEntry (fm : ℚ → String) (e : PayloadEntry) : String × Nat :=
  let mp := processLines fm e.lines
  (if mp.2 = "" then mp.1 else mp.1 ++ "|" ++ trimSpace mp.2,
   ReturncodeMap e.result)

/-- How the process terminated.  Per the Go spec and the os.Exit
documentation, os.Exit ends the process immediately and deferred function
calls are NOT run; deferred calls run only when the surrounding function
returns normally. -/
inductive ExitKind where
  | osExit : ExitKind
  | normalReturn : ExitKind
deriving DecidableEq

/-- Observable outcome of the portion of main after the HTTP call
succeeded: the lines printed to standard output, the process exit code,
and how the process terminated. -/
structure Exec where
  stdout : List String
  exitCode : Nat
  exitKind : ExitKind
deriving DecidableEq

/-- Whether the deferred `res.Body.Close()` registered at
src/nscrestc.go:163 ran: it runs exactly when main returns normally,
never when the process ends via os.Exit. -/
def Exec.closeRan (e : Exec) : Bool :=
  match e.exitKind with
  | ExitKind.osExit => false
  | ExitKind.normalReturn => true

/-- src/nscrestc.go:151-228, everything after the HTTP call at line 158
succeeded.  Inputs: the formatter abstraction `fm`, the `%+v` rendering of
the decoded structure `dumpQ` (it prints Go pointer addresses, so it is
kept abstract), the positional arguments `args` (flag.Args()), the raw -u
flag value `flagURL`, the -v flag, the verbose request/response dump texts
(httputil output, abstract), and the decoded-or-failed JSON body.  Every
path leaves via os.Exit, so the deferred body close never runs. -/
def runAfterResponse (fm : ℚ → String) (dumpQ : Query → String)
    (args : List String) (flagURL : String) (flagVerbose : Bool)
    (dumpReq dumpRes : String) (body : Option JValue) : Exec :=
  let pre := (if flagVerbose then ["REQUEST:\n" ++ dumpReq] else [])
          ++ (if flagVerbose then ["RESPONSE:\n" ++ dumpRes] else [])
  match args with
  | [] =>
      { stdout := pre ++ ["OK: NSClient API reachable on " ++ flagURL],
        exitCode := 0, exitKind := ExitKind.osExit }
  | _ :: _ =>
      let queryResult := decodeQuery body
      match queryResult.payload with
      | [] =>
          { stdout := pre
              ++ (if flagVerbose then ["QUERY RESULT:\n" ++ dumpQ queryResult] else [])
              ++ ["UNKNOWN: The resultpayload size is 0"],
            exitCode := 3, exitKind := ExitKind.osExit }
      | e :: _ =>
          { stdout := pre ++ [(formatFirstEntry fm e).1],
            exitCode := (formatFirstEntry fm e).2, exitKind := ExitKind.osExit }

/-- Split a character list at the first occurrence of `=`:
`none` when no `=` occurs, otherwise the parts before and after it. -/
def splitFirstEq : List Char → Option (List Char × List Char)
  | [] => none
  | c :: cs =>
      if c = Char.ofNat 61 then some ([], cs)
      else
        match splitFirstEq cs with
        | none => none
        | some pr => some (c :: pr.1, pr.2)

/-- One iteration of the parameter loop of src/nscrestc.go:118-124:
`strings.SplitN(a, "=", 2)` followed by `parameters.Add` — a token without
`=` is added with the empty value, otherwise the part before the first `=`
is the key and the rest the value. -/
def parseArg (a : String) : String × String :=
  match splitFirstEq a.data with
  | none => (a, "")
  | some pr => (String.mk pr.1, String.mk pr.2)

/-- The character class Go's url.QueryEscape leaves unescaped:
alphanumerics and `-`, `_`, `.`, `~`. -/
def unreservedQueryChar (c : Char) : Bool :=
  (65 ≤ c.toNat && c.toNat ≤ 90) || (97 ≤ c.toNat && c.toNat ≤ 122) ||
  (48 ≤ c.toNat && c.toNat ≤ 57) ||
  c == Char.ofNat 45 || c == Char.ofNat 95 || c == Char.ofNat 46 || c == Char.ofNat 126

/-- The UTF-8 encoding of one character as byte values, as Go ranges over
the bytes of a string. -/
def utf8Bytes (c : Char) : List Nat :=
  let n := c.toNat
  if n < 0x80 then [n]
  else if n < 0x800 then [0xC0 + n / 0x40, 0x80 + n % 0x40]
  else if n < 0x10000 then
    [0xE0 + n / 0x1000, 0x80 + (n / 0x40) % 0x40, 0x80 + n % 0x40]
  else
    [0xF0 + n / 0x40000, 0x80 + (n / 0x1000) % 0x40, 0x80 + (n / 0x40) % 0x40,
     0x80 + n % 0x40]

/-- Upper-case hexadecimal digit for a value below 16. -/
def hexDigitUpper (n : Nat) : Char :=
  if n < 10 then Char.ofNat (48 + n) else Char.ofNat (65 + n - 10)

/-- `%XX` percent-encoding of one byte value, upper-case hex as in Go. -/
def percentByte (b : Nat) : String :=
  String.mk [Char.ofNat 37, hexDigitUpper ((b / 16) % 16), hexDigitUpper (b % 16)]

/-- Go's url.QueryEscape: unreserved characters pass through, a space
becomes `+`, every other byte of the UTF-8 encoding becomes `%XX`. -/
def queryEscape (s : String) : String :=
  concatAll (s.data.map (fun c =>
    if unreservedQueryChar c then String.mk [c]
    else if c = Char.ofNat 32 then "+"
    else concatAll ((utf8Bytes c).map percentByte)))

/-- Lexicographic order on character lists by code point. -/
def charListLe : List Char → List Char → Bool
  | [], _ => true
  | _ :: _, [] => false
  | a :: as, b :: bs =>
      if a.toNat < b.toNat then true
      else if b.toNat < a.toNat then false
      else charListLe as bs

/-- Go's string order (byte-wise over UTF-8), which coincides with
code-point lexicographic order. -/
def strLe (a b : String) : Bool := charListLe a.data b.data

/-- Insert a string into a sorted list. -/
def insertSorted (s : String) : List String → List String
  | [] => [s]
  | t :: ts => if strLe s t then s :: t :: ts else t :: insertSorted s ts

/-- Sort a list of strings, modelling sort.Strings over the map keys. -/
def sortStrings (l : List String) : List String := l.foldr insertSorted []

/-- Keep the first occurrence of each string, dropping later duplicates:
the distinct keys of the url.Values map in insertion order. -/
def dedupKeys (seen : List String) : List String → List String
  | [] => []
  | x :: xs => if x ∈ seen then dedupKeys seen xs else x :: dedupKeys (x :: seen) xs

/-- All `escapedKey=escapedValue` pairs for one key, in insertion order of
the values, as Go's url.Values.Encode emits them. -/
def pairsFor (params : List (String × String)) (k : String) : List String :=
  (params.filter (fun kv => kv.1 == k)).map
    (fun kv => queryEscape k ++ "=" ++ queryEscape kv.2)

/-- Go's url.Values.Encode on the accumulated parameters: keys sorted,
each key's values in insertion order, pairs joined with `&`. -/
def valuesEncode (params : List (String × String)) : String :=
  String.intercalate "&"
    ((sortStrings (dedupKeys [] (params.map Prod.fst))).foldr
      (fun k acc => pairsFor params k ++ acc) [])

/-- src/nscrestc.go:107-131: the request path and raw query string built
from the parsed base URL's path and the positional arguments — `/` for the
probe, `/query/<first>` otherwise, with the remaining tokens parsed into
query parameters and encoded when more than one argument is given. -/
def buildPathAndQuery (basePath : String) (args : List String) : String × String :=
  match args with
  | [] => (basePath ++ "/", "")
  | [a0] => (basePath ++ "/query/" ++ a0, "")
  | a0 :: rest => (basePath ++ "/query/" ++ a0, valuesEncode (rest.map parseArg))

/-- The perfdata accumulator after the loop is the starting buffer followed
by every line's perf output, in line order. -/
theorem linesLoop_snd (fm : ℚ → String) (ls : List Line) :
    ∀ m b : String, (linesLoop fm m b ls).2 = b ++ concatAll (ls.map (perfOfLine fm)) := by
  induction ls with
  | nil => intro m b; simp [linesLoop, concatAll]
  | cons l ls ih =>
      intro m b
      simp only [linesLoop, List.map_cons, concatAll, ih, String.append_assoc]

/-- The message accumulator after the loop is the trimmed message of the
last line, or the starting value when there are no lines. -/
theorem linesLoop_fst (fm : ℚ → String) (ls : List Line) :
    ∀ m b : String,
      (linesLoop fm m b ls).1 = (ls.map (fun l => trimSpace l.message)).getLastD m := by
  induction ls with
  | nil => intro m b; rfl
  | cons l ls ih =>
      intro m b
      simp only [linesLoop, List.map_cons, List.getLastD_cons, ih]

/-- The buffer contribution of one perf entry is empty exactly when its
value pointer is nil. -/
theorem perfString_eq_empty_iff (fm : ℚ → String) (p : Perf) :
    perfString fm p = "" ↔ p.int_value.value = none := by
  cases hv : p.int_value.value with
  | none => simp [perfString, hv]
  | some v =>
      simp only [perfString, hv]
      constructor
      · intro h
        exfalso
        have hl := congrArg String.length h
        simp only [String.length_append] at hl
        have h2 : (" '" : String).length = 2 := rfl
        have h0 : ("" : String).length = 0 := rfl
        rw [h2, h0] at hl
        omega
      · intro h
        cases h

/-- Concatenating strings yields the empty string exactly when every part
is empty. -/
theorem concatAll_eq_empty_iff (ss : List String) :
    concatAll ss = "" ↔ ∀ s ∈ ss, s = "" := by
  induction ss with
  | nil => simp [concatAll]
  | cons s ss ih =>
      simp only [concatAll, List.mem_cons]
      constructor
      · intro h
        have hd := congrArg String.data h
        rw [String.data_append] at hd
        have h1 : s.data = [] := (List.append_eq_nil.mp hd).1
        have h2 : (concatAll ss).data = [] := (List.append_eq_nil.mp hd).2
        have hs : s = "" := String.ext h1
        have hss := ih.mp (String.ext h2)
        intro t ht
        rcases ht with rfl | ht
        · exact hs
        · exact hss t ht
      · intro h
        rw [h s (Or.inl rfl), ih.mpr (fun t ht => h t (Or.inr ht))]
        rfl

/-- The whole perfdata buffer is empty exactly when no metric of any line
carries a present value. -/
theorem processLines_snd_empty_iff (fm : ℚ → String) (ls : List Line) :
    (processLines fm ls).2 = "" ↔ ∀ l ∈ ls, ∀ p ∈ l.perf, p.int_value.value = none := by
  rw [processLines, linesLoop_snd, String.empty_append]
  rw [concatAll_eq_empty_iff]
  constructor
  · intro h l hl p hp
    have := h (perfOfLine fm l) (List.mem_map_of_mem _ hl)
    rw [perfOfLine, concatAll_eq_empty_iff] at this
    have := this (perfString fm p) (List.mem_map_of_mem _ hp)
    exact (perfString_eq_empty_iff fm p).mp this
  · intro h s hs
    rcases List.mem_map.mp hs with ⟨l, hl, rfl⟩
    rw [perfOfLine, concatAll_eq_empty_iff]
    intro t ht
    rcases List.mem_map.mp ht with ⟨p, hp, rfl⟩
    exact (perfString_eq_empty_iff fm p).mpr (h l hl p hp)

/-- Leading space characters are dropped by trimSpace. -/
theorem trimSpace_space_append (s : String) : trimSpace (" " ++ s) = trimSpace s := by
  cases s with
  | mk cs =>
      have : ((" " ++ String.mk cs)).data = ' ' :: cs := by
        rw [String.data_append]; rfl
      simp only [trimSpace, this]
      rfl

/-- An IntValue field step that does not match the "mininum" tag leaves
the minimum field unchanged. -/
theorem intValueStep_minimum (iv : IntValue) (kv : String × JValue)
    (h : tagMatch "mininum" kv.1 = false) :
    (intValueStep iv kv).minimum = iv.minimum := by
  rw [intValueStep]
  split
  · rfl
  · split
    · rfl
    · split
      · rfl
      · split
        · rfl
        · split
          · rename_i hm
            rw [h] at hm
            cases hm
          · split
            · rfl
            · rfl

/-- Folding fields none of which matches "mininum" never populates the
minimum field. -/
theorem foldl_intValueStep_minimum (fs : List (String × JValue)) :
    ∀ iv : IntValue, (∀ kv ∈ fs, tagMatch "mininum" kv.1 = false) →
      (fs.foldl intValueStep iv).minimum = iv.minimum := by
  induction fs with
  | nil => intro iv _; rfl
  | cons kv fs ih =>
      intro iv h
      rw [List.foldl_cons, ih _ (fun kv' hkv' => h kv' (List.mem_cons_of_mem _ hkv')),
        intValueStep_minimum iv kv (h kv (List.mem_cons_self _ _))]

/-- C1: when at least one positional argument was given and the decoded
payload is non-empty, the exit code is the ReturncodeMap lookup of the
first payload entry's result string; the table maps OK, WARNING, CRITICAL,
UNKNOWN to 0, 1, 2, 3, and every string outside the table yields 0, not 3. -/
theorem claim1_exit_code_table :
    (∀ (fm : ℚ → String) (dumpQ : Query → String) (a : String) (rest : List String)
        (url : String) (vb : Bool) (d1 d2 : String) (body : Option JValue)
        (e : PayloadEntry) (es : List PayloadEntry),
      (decodeQuery body).payload = e :: es →
      (runAfterResponse fm dumpQ (a :: rest) url vb d1 d2 body).exitCode
        = ReturncodeMap e.result)
    ∧ ReturncodeMap "OK" = 0 ∧ ReturncodeMap "WARNING" = 1
    ∧ ReturncodeMap "CRITICAL" = 2 ∧ ReturncodeMap "UNKNOWN" = 3
    ∧ (∀ s : String, s ∉ ["OK", "WARNING", "CRITICAL", "UNKNOWN"] →
        ReturncodeMap s = 0) := by
  refine ⟨?_, rfl, rfl, rfl, rfl, ?_⟩
  · intro fm dumpQ a rest url vb d1 d2 body e es h
    simp [runAfterResponse, h, formatFirstEntry]
  · intro s hs
    simp only [List.mem_cons, List.not_mem_nil, or_false] at hs
    push_neg at hs
    simp [ReturncodeMap, hs.1, hs.2.1, hs.2.2.1, hs.2.2.2]

/-- C1 witness: a response whose first payload entry carries the
unrecognized result string "BANANA" exits with code 0. -/
theorem claim1_witness :
    (runAfterResponse (fun _ => "") (fun _ => "") ["check"] "u" false "" ""
        (some (JValue.obj
          [("payload", JValue.arr [JValue.obj [("result", JValue.str "BANANA")]])]))).exitCode
      = ReturncodeMap "BANANA"
    ∧ ReturncodeMap "BANANA" = 0 :=
  ⟨claim1_exit_code_table.1 (fun _ => "") (fun _ => "") "check" [] "u" false "" ""
      (some (JValue.obj
        [("payload", JValue.arr [JValue.obj [("result", JValue.str "BANANA")]])]))
      { command := "", lines := [], result := "BANANA" } [] (by decide),
   claim1_exit_code_table.2.2.2.2.2 "BANANA" (by decide)⟩

/-- A left factor that is not empty makes the append not empty. -/
theorem left_append_ne_empty (a b : String) (h : a ≠ "") : a ++ b ≠ "" := by
  intro he
  apply h
  have hd := congrArg String.data he
  rw [String.data_append] at hd
  exact String.ext (List.append_eq_nil.mp hd).1

/-- C2: a perf entry contributes a tag to the buffer exactly when its
value is present; the tag is the single-quoted alias, `=`, the formatted
value, then the unit if present, then `;`-prefixed warning, critical,
minimum, maximum, each appended only when individually present; a metric
with only a value yields exactly the quoted alias, `=` and the value, with
no trailing `;`, and the emitted line for such a single metric is the
trimmed message, `|`, and that bare tag. -/
theorem claim2_perf_tag_shape :
    ∀ (fm : ℚ → String) (p : Perf),
      (perfString fm p = "" ↔ p.int_value.value = none)
      ∧ (∀ v : ℚ, p.int_value.value = some v →
          perfString fm p
            = " '" ++ p.Alias ++ "'=" ++ fm v
              ++ (match p.int_value.unit with
                  | some u => u
                  | none => "")
              ++ optSeg fm p.int_value.warning
              ++ optSeg fm p.int_value.critical
              ++ optSeg fm p.int_value.minimum
              ++ optSeg fm p.int_value.maximum)
      ∧ (∀ (al : String) (v : ℚ),
          perfString fm
              { Alias := al,
                int_value :=
                  { value := some v, unit := none, warning := none,
                    critical := none, minimum := none, maximum := none } }
            = " '" ++ al ++ "'=" ++ fm v)
      ∧ (∀ (al cmd res msg : String) (v : ℚ),
          (formatFirstEntry fm
              { command := cmd,
                lines := [{ message := msg,
                            perf := [{ Alias := al,
                                       int_value :=
                                         { value := some v, unit := none,
                                           warning := none, critical := none,
                                           minimum := none, maximum := none } }] }],
                result := res }).1
            = trimSpace msg ++ "|" ++ trimSpace ("'" ++ al ++ "'=" ++ fm v)) := by
  intro fm p
  refine ⟨perfString_eq_empty_iff fm p, ?_, ?_, ?_⟩
  · intro v h
    simp only [perfString, h]
  · intro al v
    simp [perfString, optSeg, String.append_empty]
  · intro al cmd res msg v
    have hsp : (" '" : String) = " " ++ "'" := rfl
    simp only [formatFirstEntry, processLines, linesLoop, perfOfLine, List.map,
      concatAll, perfString, optSeg, String.append_empty, String.empty_append]
    rw [if_neg]
    · rw [hsp]
      simp only [String.append_assoc]
      rw [trimSpace_space_append]
    · exact left_append_ne_empty _ _
        (left_append_ne_empty _ _ (left_append_ne_empty " '" al (by decide)))

/-- C2 witness: a metric with alias "used", value 1 and warning 2 (no
critical, minimum or maximum) under a constant formatter produces exactly
the quoted alias, the value, the unit and one `;`-prefixed warning. -/
theorem claim2_witness :
    perfString (fun _ => "1")
        { Alias := "used",
          int_value := { value := some 1, unit := some "%", warning := some 2,
                         critical := none, minimum := none, maximum := none } }
      = " 'used'=1%;1" := by
  rw [(claim2_perf_tag_shape (fun _ => "1")
    { Alias := "used",
      int_value := { value := some 1, unit := some "%", warning := some 2,
                     critical := none, minimum := none, maximum := none } }).2.1 1 rfl]
  decide

/-- C3: with positional arguments and a non-empty decoded payload, only
the first payload entry matters — the emitted line is that entry's last
line's trimmed message, with `|` and the trimmed concatenation of every
line's perf tags in line order appended exactly when at least one tag was
produced; later payload entries influence nothing. -/
theorem claim3_first_entry_only :
    ∀ (fm : ℚ → String) (dumpQ : Query → String) (a : String) (rest : List String)
      (url d1 d2 : String) (body : Option JValue)
      (e : PayloadEntry) (es : List PayloadEntry),
      (decodeQuery body).payload = e :: es →
      (runAfterResponse fm dumpQ (a :: rest) url false d1 d2 body).stdout
          = [(formatFirstEntry fm e).1]
      ∧ (∀ vb : Bool,
          (runAfterResponse fm dumpQ (a :: rest) url vb d1 d2 body).exitCode
            = (formatFirstEntry fm e).2)
      ∧ (processLines fm e.lines).1
          = (e.lines.map (fun l => trimSpace l.message)).getLastD ""
      ∧ (processLines fm e.lines).2 = concatAll (e.lines.map (perfOfLine fm))
      ∧ ((processLines fm e.lines).2 = ""
          ↔ ∀ l ∈ e.lines, ∀ p ∈ l.perf, p.int_value.value = none)
      ∧ (formatFirstEntry fm e).1
          = (if (processLines fm e.lines).2 = "" then (processLines fm e.lines).1
             else (processLines fm e.lines).1 ++ "|"
               ++ trimSpace (processLines fm e.lines).2) := by
  intro fm dumpQ a rest url d1 d2 body e es h
  refine ⟨?_, ?_, ?_, ?_, processLines_snd_empty_iff fm e.lines, rfl⟩
  · simp [runAfterResponse, h]
  · intro vb
    simp [runAfterResponse, h]
  · rw [processLines, linesLoop_fst]
  · rw [processLines, linesLoop_snd, String.empty_append]

/-- A sample response body: two payload entries, the first with result
WARNING and two lines each carrying one valued metric, the second with
result CRITICAL. -/
def sampleBody3 : Option JValue :=
  some (JValue.obj [("payload", JValue.arr [
    JValue.obj [("result", JValue.str "WARNING"),
      ("lines", JValue.arr [
        JValue.obj [("message", JValue.str " one "),
          ("perf", JValue.arr [JValue.obj [("alias", JValue.str "m1"),
            ("int_value", JValue.obj [("value", JValue.num 1)])]])],
        JValue.obj [("message", JValue.str " two "),
          ("perf", JValue.arr [JValue.obj [("alias", JValue.str "m2"),
            ("int_value", JValue.obj [("value", JValue.num 2)])]])]])],
    JValue.obj [("result", JValue.str "CRITICAL")]])])

/-- The decoded first payload entry of `sampleBody3`. -/
def sampleEntry3 : PayloadEntry :=
  { command := "",
    lines := [{ message := " one ",
                perf := [{ Alias := "m1",
                           int_value := { value := some 1, unit := none, warning := none,
                                          critical := none, minimum := none, maximum := none } }] },
              { message := " two ",
                perf := [{ Alias := "m2",
                           int_value := { value := some 2, unit := none, warning := none,
                                          critical := none, minimum := none, maximum := none } }] }],
    result := "WARNING" }

/-- A concrete formatter distinguishing the two sample metric values. -/
def fm3 : ℚ → String := fun q => if q = 1 then "1" else "2"

/-- C3 witness: on the two-entry, two-line sample response the emitted
line is the second line's trimmed message followed by both lines' tags,
and the exit code comes from the first entry's WARNING, ignoring the
second entry's CRITICAL. -/
theorem claim3_witness :
    (runAfterResponse fm3 (fun _ => "") ["check"] "u" false "" "" sampleBody3).stdout
        = ["two|'m1'=1 'm2'=2"]
    ∧ (runAfterResponse fm3 (fun _ => "") ["check"] "u" false "" "" sampleBody3).exitCode
        = 1 := by
  have h := claim3_first_entry_only fm3 (fun _ => "") "check" [] "u" "" "" sampleBody3
    sampleEntry3 [{ command := "", lines := [], result := "CRITICAL" }] (by decide)
  exact ⟨h.1.trans (by decide), (h.2.1 false).trans (by decide)⟩

/-- C4: with positional arguments and an empty decoded payload, the
program prints exactly `UNKNOWN: The resultpayload size is 0` (in
non-verbose mode this is the whole output) and exits with code 3. -/
theorem claim4_empty_payload :
    ∀ (fm : ℚ → String) (dumpQ : Query → String) (a : String) (rest : List String)
      (url d1 d2 : String) (body : Option JValue),
      (decodeQuery body).payload = [] →
      (runAfterResponse fm dumpQ (a :: rest) url false d1 d2 body).stdout
          = ["UNKNOWN: The resultpayload size is 0"]
      ∧ (∀ vb : Bool,
          (runAfterResponse fm dumpQ (a :: rest) url vb d1 d2 body).exitCode = 3
          ∧ (runAfterResponse fm dumpQ (a :: rest) url vb d1 d2 body).stdout.getLast?
              = some "UNKNOWN: The resultpayload size is 0") := by
  intro fm dumpQ a rest url d1 d2 body h
  constructor
  · simp [runAfterResponse, h]
  · intro vb
    constructor
    · simp [runAfterResponse, h]
    · simp [runAfterResponse, h, List.getLast?_concat]

/-- C4 witness: a body with no JSON value decodes to the zero-valued
structure, so the run reports the zero payload size and exits 3. -/
theorem claim4_witness :
    (runAfterResponse (fun _ => "") (fun _ => "") ["check"] "u" false "" "" none).stdout
        = ["UNKNOWN: The resultpayload size is 0"]
    ∧ (runAfterResponse (fun _ => "") (fun _ => "") ["check"] "u" false "" "" none).exitCode
        = 3 :=
  ⟨(claim4_empty_payload (fun _ => "") (fun _ => "") "check" [] "u" "" "" none rfl).1,
   ((claim4_empty_payload (fun _ => "") (fun _ => "") "check" [] "u" "" "" none rfl).2
      false).1⟩

/-- C5 counterexample: the well-formed but wrongly shaped body
`{"payload":[{"result":5}]}` (result must be a string) does NOT decode to
the zero-valued Query structure — encoding/json records the type error,
skips the mismatched value and keeps the one payload entry — so the run
takes the normal path and exits 0, not 3. -/
theorem claim5_counterexample :
    (decodeQuery (some (JValue.obj
        [("payload", JValue.arr [JValue.obj [("result", JValue.num 5)]])]))).payload
      = [{ command := "", lines := [], result := "" }]
    ∧ (decide (decodeQuery (some (JValue.obj
        [("payload", JValue.arr [JValue.obj [("result", JValue.num 5)]])]))
        = Query.zero)) = false
    ∧ (runAfterResponse (fun _ => "") (fun _ => "") ["check"] "u" false "" ""
        (some (JValue.obj
          [("payload", JValue.arr [JValue.obj [("result", JValue.num 5)]])]))).exitCode
      = 0 := by
  exact ⟨by decide, by decide, by decide⟩

/-- C5 amended: decoding never surfaces an error; a body that is
malformed JSON (no complete JSON value) or whose top-level value is not a
JSON object yields the zero-valued Query structure and is observably
indistinguishable from a well-formed response with an empty payload
array, taking the unknown path with exit code 3 — while wrong shapes
strictly below the top level may decode to a partially populated,
non-zero structure. -/
theorem claim5_amended_decode :
    decodeQuery none = Query.zero
    ∧ decodeQueryVal JValue.null = Query.zero
    ∧ (∀ b : Bool, decodeQueryVal (JValue.bool b) = Query.zero)
    ∧ (∀ q : ℚ, decodeQueryVal (JValue.num q) = Query.zero)
    ∧ (∀ s : String, decodeQueryVal (JValue.str s) = Query.zero)
    ∧ (∀ xs : List JValue, decodeQueryVal (JValue.arr xs) = Query.zero)
    ∧ (∀ (fm : ℚ → String) (dumpQ : Query → String) (args : List String)
        (url : String) (vb : Bool) (d1 d2 : String),
        runAfterResponse fm dumpQ args url vb d1 d2 none
          = runAfterResponse fm dumpQ args url vb d1 d2
              (some (JValue.obj [("payload", JValue.arr [])])))
    ∧ (∀ (fm : ℚ → String) (dumpQ : Query → String) (a : String)
        (rest : List String) (url d1 d2 : String) (body : Option JValue),
        (decodeQuery body).payload = [] →
        (runAfterResponse fm dumpQ (a :: rest) url false d1 d2 body).stdout
            = ["UNKNOWN: The resultpayload size is 0"]
        ∧ (runAfterResponse fm dumpQ (a :: rest) url false d1 d2 body).exitCode = 3) := by
  refine ⟨rfl, rfl, fun b => rfl, fun q => rfl, fun s => rfl, fun xs => rfl, ?_, ?_⟩
  · intro fm dumpQ args url vb d1 d2
    have h0 : decodeQuery (some (JValue.obj [("payload", JValue.arr [])]))
        = decodeQuery none := by decide
    simp [runAfterResponse, h0]
  · intro fm dumpQ a rest url d1 d2 body h
    exact ⟨by simp [runAfterResponse, h], by simp [runAfterResponse, h]⟩

/-- C5 witness: a body with no JSON value at all takes the unknown path
with exit code 3. -/
theorem claim5_witness :
    (runAfterResponse (fun _ => "") (fun _ => "") ["check"] "u" false "" "" none).exitCode
      = 3 :=
  (claim5_amended_decode.2.2.2.2.2.2.2 (fun _ => "") (fun _ => "") "check" [] "u" "" ""
    none rfl).2

/-- C6: with more than one positional argument the request path is the
base path extended with `/query/<first>`, and the remaining tokens are
split at their first `=` into key/value parameters (a token without `=`
becomes the key with an empty value), then URL-encoded and
order-normalized by key: `checkname foo=bar` gives path `/query/checkname`
and query `foo=bar`, a bare `foo` gives `foo=`, keys are emitted sorted,
and values are percent/plus-encoded. -/
theorem claim6_query_construction :
    (∀ (basePath a0 r : String) (rest : List String),
      buildPathAndQuery basePath (a0 :: r :: rest)
        = (basePath ++ "/query/" ++ a0, valuesEncode ((r :: rest).map parseArg)))
    ∧ buildPathAndQuery "" ["checkname", "foo=bar"] = ("/query/checkname", "foo=bar")
    ∧ buildPathAndQuery "" ["checkname", "foo"] = ("/query/checkname", "foo=")
    ∧ buildPathAndQuery "" ["c", "b=2", "a=1"] = ("/query/c", "a=1&b=2")
    ∧ buildPathAndQuery "" ["c", "k=a b"] = ("/query/c", "k=a+b")
    ∧ parseArg "foo=bar" = ("foo", "bar")
    ∧ parseArg "foo" = ("foo", "")
    ∧ parseArg "a=b=c" = ("a", "b=c") := by
  refine ⟨fun basePath a0 r rest => rfl, ?_, ?_, ?_, ?_, ?_, ?_, ?_⟩
  · decide
  · decide
  · decide
  · decide
  · decide
  · decide
  · decide

/-- C7: with zero positional arguments the run prints exactly
`OK: NSClient API reachable on <url>` (in non-verbose mode this is the
whole output, and it is always the final line) and exits with code 0,
whatever the response body holds. -/
theorem claim7_probe_mode :
    ∀ (fm : ℚ → String) (dumpQ : Query → String) (url d1 d2 : String)
      (body : Option JValue),
      (runAfterResponse fm dumpQ [] url false d1 d2 body).stdout
          = ["OK: NSClient API reachable on " ++ url]
      ∧ (∀ vb : Bool,
          (runAfterResponse fm dumpQ [] url vb d1 d2 body).exitCode = 0
          ∧ (runAfterResponse fm dumpQ [] url vb d1 d2 body).stdout.getLast?
              = some ("OK: NSClient API reachable on " ++ url)) := by
  intro fm dumpQ url d1 d2 body
  refine ⟨rfl, ?_⟩
  intro vb
  exact ⟨rfl, by simp [runAfterResponse, List.getLast?_concat]⟩

/-- C8: the verbose flag changes neither the exit code nor the final
(decision-relevant) output line: two runs identical but for -v agree on
both, verbose mode only prepending diagnostic dump lines. -/
theorem claim8_verbose_transparent :
    ∀ (fm : ℚ → String) (dumpQ : Query → String) (args : List String)
      (url d1 d2 : String) (body : Option JValue),
      (runAfterResponse fm dumpQ args url true d1 d2 body).exitCode
        = (runAfterResponse fm dumpQ args url false d1 d2 body).exitCode
      ∧ (runAfterResponse fm dumpQ args url true d1 d2 body).stdout.getLast?
        = (runAfterResponse fm dumpQ args url false d1 d2 body).stdout.getLast? := by
  intro fm dumpQ args url d1 d2 body
  cases args with
  | nil => exact ⟨rfl, by simp [runAfterResponse, List.getLast?_concat]⟩
  | cons a rest =>
      cases hp : (decodeQuery body).payload with
      | nil => exact ⟨by simp [runAfterResponse, hp], by simp [runAfterResponse, hp, List.getLast?_concat]⟩
      | cons e es => exact ⟨by simp [runAfterResponse, hp], by simp [runAfterResponse, hp, List.getLast?_concat]⟩

/-- C9: the deferred res.Body.Close registered at src/nscrestc.go:163
never runs, because every path after the HTTP call terminates through
os.Exit, which skips deferred calls — shown at the concrete probe-mode
input and on every input. -/
theorem claim9_body_never_closed :
    ((runAfterResponse (fun _ => "") (fun _ => "") [] "https://10.1.2.3:8443" false "" ""
        none).closeRan = false)
    ∧ ∀ (fm : ℚ → String) (dumpQ : Query → String) (args : List String)
        (url : String) (vb : Bool) (d1 d2 : String) (body : Option JValue),
        (runAfterResponse fm dumpQ args url vb d1 d2 body).closeRan = false := by
  refine ⟨rfl, ?_⟩
  intro fm dumpQ args url vb d1 d2 body
  cases args with
  | nil => rfl
  | cons a rest =>
      cases hp : (decodeQuery body).payload with
      | nil => simp [runAfterResponse, hp, Exec.closeRan]
      | cons e es => simp [runAfterResponse, hp, Exec.closeRan]

/-- C10 counterexample: the key "Mininum" — not spelled "mininum" — also
populates the minimum field, because encoding/json matches field names
case-insensitively; so "populated only when the object carries the key
spelled mininum" fails. -/
theorem claim10_counterexample :
    (("value" == "mininum") = false)
    ∧ (("Mininum" == "mininum") = false)
    ∧ (decodeIntValueInto IntValue.zero
        (JValue.obj [("value", JValue.num 1), ("Mininum", JValue.num 5)])).minimum
      = some 5 := by
  exact ⟨rfl, rfl, by decide⟩

/-- C10 amended: the minimum field is populated exactly by keys matching
the struct tag "mininum" under encoding/json's (case-insensitive)
field-name matching; the standard spelling "minimum" never matches that
tag, so a metric supplying its minimum as "minimum" decodes with no
minimum and its tag carries no minimum segment. -/
theorem claim10_amended_mininum :
    (∀ fs : List (String × JValue),
      (∀ kv ∈ fs, tagMatch "mininum" kv.1 = false) →
      (decodeIntValueInto IntValue.zero (JValue.obj fs)).minimum = none)
    ∧ tagMatch "mininum" "minimum" = false
    ∧ (decodeIntValueInto IntValue.zero (JValue.obj [("minimum", JValue.num 5)])).minimum
        = none
    ∧ (decodeIntValueInto IntValue.zero (JValue.obj [("mininum", JValue.num 5)])).minimum
        = some 5
    ∧ (∀ (fm : ℚ → String) (al : String),
        perfString fm
            { Alias := al,
              int_value := decodeIntValueInto IntValue.zero
                (JValue.obj [("value", JValue.num 1), ("minimum", JValue.num 5)]) }
          = " '" ++ al ++ "'=" ++ fm 1) := by
  refine ⟨?_, by decide, by decide, by decide, ?_⟩
  · intro fs h
    rw [decodeIntValueInto]
    exact foldl_intValueStep_minimum fs IntValue.zero h
  · intro fm al
    have h : decodeIntValueInto IntValue.zero
        (JValue.obj [("value", JValue.num 1), ("minimum", JValue.num 5)])
        = { value := some 1, unit := none, warning := none, critical := none,
            minimum := none, maximum := none } := by decide
    rw [h]
    simp [perfString, optSeg, String.append_empty]

/-- C10 witness: an object carrying no key matching "mininum" decodes
with an absent minimum. -/
theorem claim10_witness :
    (decodeIntValueInto IntValue.zero (JValue.obj [("unit", JValue.str "B")])).minimum
      = none :=
  claim10_amended_mininum.1 [("unit", JValue.str "B")] (by decide)

end Nscrestc
